import Mathlib

/-!
Shallow embedding of the risk-and-execution engine in `trader/auto_trader.go`
(package `trader`), together with theorems settling the specification claims.

Modelling conventions:

* Go `float64` arithmetic is embedded as exact rational arithmetic (`ℚ`).
* Go maps keyed by `symbol_side` strings become total functions
  `String → Option ℚ` (or `Option positionMeta`); `mapSet`/`mapDel` mirror
  Go map assignment and `delete`.
* Fallible Go functions returning `error` become `Except String _` or a
  dedicated result inductive; stateful methods of `AutoTrader` become pure
  functions from an explicit state record to a new state (plus outputs).
* External adapter calls (`GetPositions`, `CloseLong`, ...) are injected as
  explicit parameters: an `Except String _` for a fallible query result, a
  `Bool` for whether an order call succeeded.
-/

section
attribute [local semireducible] Rat.add Rat.mul Rat.inv Rat.sub

/-- Go `strings.ToUpper` (ASCII range, as the source uses it on ticker
symbols and side tags): uppercase every character. -/
def toUpperStr (s : String) : String := ⟨s.data.map Char.toUpper⟩

/-- Go `strings.ToLower` (ASCII range): lowercase every character. -/
def toLowerStr (s : String) : String := ⟨s.data.map Char.toLower⟩

/-- Go `strings.HasPrefix s p`. -/
def strStartsWith (s p : String) : Bool := p.data.isPrefixOf s.data

/-- Go `floatEpsilon = 1e-6` from `auto_trader.go`. -/
def floatEpsilon : ℚ := 1 / 1000000

/-- Go `minConfidence = 80` from `auto_trader.go`. -/
def minConfidence : Int := 80

/-- A Go `map[string]float64` cache, as a total function to `Option ℚ`. -/
def Cache : Type := String → Option ℚ

/-- The empty cache (no keys present). -/
def emptyCache : Cache := fun _ => none

/-- Go map assignment `m[k] = v`. -/
def mapSet (m : Cache) (k : String) (v : ℚ) : Cache :=
  fun q => if q = k then some v else m q

/-- Go `delete(m, k)`. -/
def mapDel (m : Cache) (k : String) : Cache :=
  fun q => if q = k then none else m q

/-- Go `positionKey`: `fmt.Sprintf("%s_%s", symbol, strings.ToLower(side))`. -/
def positionKey (symbol side : String) : String :=
  symbol ++ "_" ++ toLowerStr side

/-- Result of the stop-loss ratchet guard `ensureStopLossTightening`:
either it passes, or it rejects with an error carrying the cached
(previous) stop and the proposed new stop, exactly the two values the
Go error message interpolates. -/
inductive TightenResult
  | ok
  | err (previous newStop : ℚ)
  deriving DecidableEq

/-- Go `ensureStopLossTightening(symbol, side, newStop)`: looks up the cached
stop for `positionKey symbol side`; no entry means a first-ever write and
passes.  For a LONG the update is rejected iff `newStop + floatEpsilon <
previous`; otherwise (short) rejected iff `newStop - floatEpsilon >
previous`. -/
def ensureStopLossTightening (stopLossCache : Cache) (symbol side : String)
    (newStop : ℚ) : TightenResult :=
  match stopLossCache (positionKey symbol side) with
  | none => .ok
  | some previous =>
    if toUpperStr side = "LONG" then
      if newStop + floatEpsilon < previous then .err previous newStop else .ok
    else
      if newStop - floatEpsilon > previous then .err previous newStop else .ok

/-- Go `market.Data.MidTermContext`: the 15m indicator block (ATR14, EMA20, RSI7). -/
structure TermContext where
  atr14 : ℚ
  ema20 : ℚ
  rsi7 : ℚ
  deriving DecidableEq

/-- Go `market.Data.LongerTermContext`: the 1h indicator block (ATR14). -/
structure LongContext where
  atr14 : ℚ
  deriving DecidableEq

/-- Go `market.Data`: the fields of the market snapshot the engine reads.
Nil-able Go pointers become `Option`; `IntradaySeries.RSI7Values` becomes a
list (an absent series is the empty list, matching the `len ≥ 2` guard). -/
structure MarketData where
  currentPrice : ℚ
  currentMACD : ℚ
  midTermContext : Option TermContext
  longerTermContext : Option LongContext
  intradayRSI7 : List ℚ
  deriving DecidableEq

/-- The `1.5 × 15m ATR14` candidate of the `allowedStopDistance` fallback
(0 when the block is absent or the ATR non-positive, i.e. the candidate is
not appended). -/
def fallbackMidCandidate (data : MarketData) : ℚ :=
  match data.midTermContext with
  | some mt => if mt.atr14 > 0 then mt.atr14 * (3/2) else 0
  | none => 0

/-- The `1.5% × price` candidate of the `allowedStopDistance` fallback
(0 when the price is non-positive). -/
def fallbackPriceCandidate (data : MarketData) : ℚ :=
  if data.currentPrice > 0 then data.currentPrice * (15/1000) else 0

/-- Fallback branch of `allowedStopDistance`: the maximum of
`1.5 × mid-term ATR14` (when present and positive) and `1.5% of price`
(when the price is positive); `none` when no candidate is positive. -/
def allowedStopDistanceFallback (data : MarketData) : Option ℚ :=
  let allowed := max (fallbackMidCandidate data) (fallbackPriceCandidate data)
  if allowed ≤ 0 then none else some allowed

/-- Go `allowedStopDistance(data)`: returns the 1h ATR14 whenever it is present
and positive; only otherwise falls back to
`max(1.5 × 15m ATR14, 1.5% × price)`.  `none` models the error returns. -/
def allowedStopDistance (data : MarketData) : Option ℚ :=
  match data.longerTermContext with
  | some lt =>
    if lt.atr14 > 0 then some lt.atr14 else allowedStopDistanceFallback data
  | none => allowedStopDistanceFallback data

/-- The stop-distance validation slice of `ensurePositionFitsBalance`:
passes (`true`) iff `allowedStopDistance` yields a positive bound and
`|stopLoss − currentPrice|` does not exceed it. -/
def stopDistanceCheck (data : MarketData) (stopLoss : ℚ) : Bool :=
  match allowedStopDistance data with
  | none => false
  | some allowed =>
    if allowed ≤ 0 then false
    else decide (¬ |stopLoss - data.currentPrice| > allowed)

/-- The spec's wording of the allowed stop distance, for comparison with the
code's `allowedStopDistance`: the larger of the 1h ATR14, 1.5 × 15m ATR14
and 1.5% of price. -/
def specAllowedStopDistance (data : MarketData) : ℚ :=
  let a1 : ℚ := match data.longerTermContext with
    | some lt => lt.atr14
    | none => 0
  let a2 : ℚ := match data.midTermContext with
    | some mt => mt.atr14 * (3/2)
    | none => 0
  let a3 : ℚ := data.currentPrice * (15/1000)
  max (max a1 a2) a3

/-- Go `isMajorPair(symbol)`: uppercased symbol is BTCUSDT or ETHUSDT. -/
def isMajorPair (symbol : String) : Bool :=
  toUpperStr symbol = "BTCUSDT" ∨ toUpperStr symbol = "ETHUSDT"

/-- The safety buffer reserved by `ensurePositionFitsBalance`:
`max(0.5, 2% of available balance)`. -/
def safetyBuffer (availableBalance : ℚ) : ℚ :=
  max (1/2) (availableBalance * (2/100))

/-- Go `maxNotional = (available − buffer) × leverage` from
`ensurePositionFitsBalance`. -/
def maxNotionalFor (availableBalance : ℚ) (leverage : Int) : ℚ :=
  (availableBalance - safetyBuffer availableBalance) * (leverage : ℚ)

/-- The sizing fields of a decision that `ensurePositionFitsBalance`
mutates: position notional and risk budget (both USD). -/
structure Sizing where
  positionSizeUSD : ℚ
  riskUSD : ℚ
  deriving DecidableEq

/-- The equity-based clamp block of `ensurePositionFitsBalance`:
small-account mode (`0 < equity < 150`, tolerance `floatEpsilon`) caps the
notional at `1 × equity`; otherwise a soft cap of `1.5 × equity`
(`3 × equity` for BTC/ETH) applies.  Each applied clamp rescales
`riskUSD` (when positive) by the same ratio. -/
def applyEquityClamps (symbol : String) (s : Sizing) (totalEquity : ℚ) : Sizing :=
  if totalEquity > floatEpsilon ∧ totalEquity < 150 then
    let maxNotionalByEquity := totalEquity
    if s.positionSizeUSD > maxNotionalByEquity then
      let ratio := maxNotionalByEquity / s.positionSizeUSD
      { positionSizeUSD := maxNotionalByEquity
        riskUSD := if s.riskUSD > 0 then s.riskUSD * ratio else s.riskUSD }
    else s
  else if totalEquity > floatEpsilon then
    let softMultiplier : ℚ := if isMajorPair symbol then 3 else 3/2
    let softCap := totalEquity * softMultiplier
    if softCap > floatEpsilon ∧ s.positionSizeUSD > softCap then
      let ratio := softCap / s.positionSizeUSD
      { positionSizeUSD := softCap
        riskUSD := if s.riskUSD > 0 then s.riskUSD * ratio else s.riskUSD }
    else s
  else s

/-- The hard cap block of `ensurePositionFitsBalance`: clamp the notional
at `maxNotional`, rescaling `riskUSD` (when positive) by the same ratio. -/
def applyHardCap (s : Sizing) (maxNotional : ℚ) : Sizing :=
  if s.positionSizeUSD > maxNotional then
    let ratio := maxNotional / s.positionSizeUSD
    { positionSizeUSD := maxNotional
      riskUSD := if s.riskUSD > 0 then s.riskUSD * ratio else s.riskUSD }
  else s

/-- The `maxRisk` cap of `ensurePositionFitsBalance`: a positive risk budget
is capped at 80% of the available balance. -/
def applyMaxRiskCap (s : Sizing) (maxRisk : ℚ) : Sizing :=
  if s.riskUSD > 0 ∧ s.riskUSD > maxRisk then { s with riskUSD := maxRisk } else s

/-- The final risk normalisation of `ensurePositionFitsBalance`: when equity
is positive, a non-positive risk becomes `max(0.5% × equity, 0.5)` and a
risk deviating from that target by more than 50% of it is overwritten. -/
def normalizeRisk (s : Sizing) (totalEquity : ℚ) : Sizing :=
  if totalEquity > floatEpsilon then
    let expectedRisk := max (totalEquity * (5/1000)) (1/2)
    if s.riskUSD ≤ 0 then { s with riskUSD := expectedRisk }
    else if |s.riskUSD - expectedRisk| > expectedRisk * (1/2) then
      { s with riskUSD := expectedRisk }
    else s
  else s

/-- Go `ensurePositionFitsBalance(decision, availableBalance, totalEquity,
marketData)`: validates leverage, buffer headroom, the minimum notional
floor (60 for BTC/ETH, 12 otherwise) and the stop distance, then applies
the equity clamps, the hard cap, the risk cap and the risk normalisation
in the source's order, returning the adjusted sizing. -/
def ensurePositionFitsBalance (symbol : String) (leverage : Int)
    (stopLoss : ℚ) (s : Sizing) (availableBalance totalEquity : ℚ)
    (marketData : Option MarketData) : Except String Sizing :=
  if leverage ≤ 0 then .error "leverage unset" else
  let maxUsable := availableBalance - safetyBuffer availableBalance
  if maxUsable ≤ 0 then .error "balance below safety buffer" else
  let maxNotional := maxUsable * (leverage : ℚ)
  let minNotional : ℚ := if isMajorPair symbol then 60 else 12
  if maxNotional < minNotional then .error "below minimum notional" else
  let maxRisk := availableBalance * (8/10)
  match marketData with
  | none => .error "missing market data"
  | some data =>
    if stopDistanceCheck data stopLoss then
      .ok (normalizeRisk
        (applyMaxRiskCap (applyHardCap (applyEquityClamps symbol s totalEquity) maxNotional) maxRisk)
        totalEquity)
    else .error "stop distance too wide"

/-- Go `decision.Decision`: the fields of a decision the engine reads. -/
structure Decision where
  symbol : String
  action : String
  leverage : Int := 0
  positionSizeUSD : ℚ := 0
  riskUSD : ℚ := 0
  stopLoss : ℚ := 0
  takeProfit : ℚ := 0
  newStopLoss : ℚ := 0
  newTakeProfit : ℚ := 0
  closePercentage : ℚ := 0
  confidence : Int := 0
  deriving DecidableEq

/-- Go `getActionPriority` from `sortDecisionsByPriority`: closes and partial
closes 1, stop/TP updates 2, opens 3, hold/wait 4, anything else 999. -/
def getActionPriority (action : String) : Nat :=
  if action = "close_long" ∨ action = "close_short" ∨ action = "partial_close" then 1
  else if action = "update_stop_loss" ∨ action = "update_take_profit" then 2
  else if action = "open_long" ∨ action = "open_short" then 3
  else if action = "hold" ∨ action = "wait" then 4
  else 999

/-- One iteration of the outer loop of `sortDecisionsByPriority` for a fixed
index `i`: `x` is the value currently at position `i`, the list is the
suffix at positions `i+1 …`; each inner step swaps when the carried value
has strictly greater priority than the element under scan.  Returns the
final value at position `i` and the updated suffix. -/
def passMin (x : Decision) : List Decision → Decision × List Decision
  | [] => (x, [])
  | y :: ys =>
    if getActionPriority y.action < getActionPriority x.action then
      let p := passMin y ys
      (p.1, x :: p.2)
    else
      let p := passMin x ys
      (p.1, y :: p.2)

/-- The nested swap loops of `sortDecisionsByPriority`, expressed
structurally with a fuel argument (one unit per outer-loop index): run
`passMin` for the current position, then recurse on the updated suffix.
`passMin` preserves length, so fuel `l.length` always suffices. -/
def sortLoopFuel : Nat → List Decision → List Decision
  | 0, l => l
  | _ + 1, [] => []
  | n + 1, x :: xs =>
    let p := passMin x xs
    p.1 :: sortLoopFuel n p.2

/-- Go `sortDecisionsByPriority(decisions)`: lists of length ≤ 1 are returned
unchanged; otherwise the copy is sorted in place by the swap loops. -/
def sortDecisionsByPriority (decisions : List Decision) : List Decision :=
  if decisions.length ≤ 1 then decisions
  else sortLoopFuel decisions.length decisions

/-- Go `roiProfile`: leverage-banded thresholds `{breakeven, lock30, lock50,
drawdown, floor}` (all percentages). -/
structure RoiProfile where
  breakeven : ℚ
  lock30 : ℚ
  lock50 : ℚ
  drawdown : ℚ
  floorPct : ℚ
  deriving DecidableEq

/-- Go `roiProfileFor(leverage)`: the four leverage buckets of the ROI
ladder. -/
def roiProfileFor (leverage : Int) : RoiProfile :=
  if leverage ≤ 2 then
    ⟨6, 8, 12, 40, 7/10⟩
  else if leverage ≤ 5 then
    ⟨3, 6, 10, 35, 2⟩
  else if leverage ≤ 10 then
    ⟨2, 4, 7, 30, 3⟩
  else
    ⟨3/2, 3, 5, 25, 7/2⟩

/-- Go `positionRoiPct(side, entryPrice, markPrice, leverage)`: leveraged ROI%
(`((mark − entry)/entry) × leverage × 100`, sign-flipped for non-long
sides); non-positive leverage is treated as 1. -/
def positionRoiPct (side : String) (entryPrice markPrice : ℚ)
    (leverage : Int) : ℚ :=
  let lev : Int := if leverage ≤ 0 then 1 else leverage
  if toLowerStr side = "long" then
    ((markPrice - entryPrice) / entryPrice) * (lev : ℚ) * 100
  else
    ((entryPrice - markPrice) / entryPrice) * (lev : ℚ) * 100

/-- Go `UpdatePeakPnL(symbol, side, currentPnLPct)`: overwrite the cached peak
only when the new value is strictly larger; create the entry on first
sight. -/
def updatePeakPnL (peakCache : Cache) (symbol side : String)
    (currentPnLPct : ℚ) : Cache :=
  let key := positionKey symbol side
  match peakCache key with
  | some peak =>
    if currentPnLPct > peak then mapSet peakCache key currentPnLPct else peakCache
  | none => mapSet peakCache key currentPnLPct

/-- Go `ClearPeakPnLCache(symbol, side)`: delete the peak entry. -/
def clearPeakPnLCache (peakCache : Cache) (symbol side : String) : Cache :=
  mapDel peakCache (positionKey symbol side)

/-- One position entry as read by `checkPositionDrawdown` from the
`GetPositions` snapshot: symbol, side, entry/mark price, signed position
amount, and the venue-reported leverage when the field is present. -/
structure DrawdownPos where
  symbol : String
  side : String
  entryPrice : ℚ
  markPrice : ℚ
  positionAmt : ℚ
  leverage : Option ℚ
  deriving DecidableEq

/-- The leverage resolution in `checkPositionDrawdown`: default 10, replaced
by the truncated venue value when present and positive. -/
def drawdownLeverage (pos : DrawdownPos) : Int :=
  match pos.leverage with
  | some lev => if lev > 0 then ⌊lev⌋ else 10
  | none => 10

/-- The externally visible actions the drawdown monitor can take for one
position within a tick. -/
inductive TickAction
  | emergencyClose
  | dynamicProtection
  deriving DecidableEq

/-- The per-position body of `checkPositionDrawdown`: update the peak cache
with the current ROI, and when a positive peak exists, has been retraced
from, meets the bucket's breakeven threshold and the retracement meets the
bucket's drawdown threshold, issue an emergency close first.  Only when
that close succeeds (`closeSucceeds`) is the peak entry cleared and the
dynamic-protection pass skipped; otherwise the body falls through to
`applyDynamicProtection`.  Positions with near-zero quantity are skipped.
Returns the updated peak cache and the ordered actions issued. -/
def checkPositionDrawdownStep (peakCache : Cache) (pos : DrawdownPos)
    (closeSucceeds : Bool) : Cache × List TickAction :=
  let quantity := |pos.positionAmt|
  if quantity < floatEpsilon then (peakCache, [])
  else
    let leverage := drawdownLeverage pos
    let currentPnLPct := positionRoiPct pos.side pos.entryPrice pos.markPrice leverage
    let cache1 := updatePeakPnL peakCache pos.symbol pos.side currentPnLPct
    match cache1 (positionKey pos.symbol pos.side) with
    | some peakPnLPct =>
      if peakPnLPct > 0 ∧ currentPnLPct < peakPnLPct then
        let drawdownPct := ((peakPnLPct - currentPnLPct) / peakPnLPct) * 100
        let profile := roiProfileFor leverage
        if peakPnLPct ≥ profile.breakeven ∧ drawdownPct ≥ profile.drawdown then
          if closeSucceeds then
            (clearPeakPnLCache cache1 pos.symbol pos.side, [.emergencyClose])
          else
            (cache1, [.emergencyClose, .dynamicProtection])
        else (cache1, [.dynamicProtection])
      else (cache1, [.dynamicProtection])
    | none => (cache1, [.dynamicProtection])

/-- Go `positionMeta`: the cached entry details of an opened position. -/
structure PositionMeta where
  side : String
  entryPrice : ℚ
  quantity : ℚ
  deriving DecidableEq

/-- A Go `map[string]*positionMeta`, as a total function. -/
def MetaMap : Type := String → Option PositionMeta

/-- The empty position-meta map. -/
def emptyMetaMap : MetaMap := fun _ => none

/-- Go map assignment on the position-meta map. -/
def metaSet (m : MetaMap) (k : String) (v : PositionMeta) : MetaMap :=
  fun q => if q = k then some v else m q

/-- Go `delete` on the position-meta map. -/
def metaDel (m : MetaMap) (k : String) : MetaMap :=
  fun q => if q = k then none else m q

/-- The mutable engine state the settled claims touch: the position-meta,
stop-loss, take-profit and peak-PnL caches plus the circuit-breaker
fields.  `stopUntil` is a timestamp in seconds. -/
structure TraderState where
  positionMeta : MetaMap
  stopLossCache : Cache
  takeProfitCache : Cache
  peakPnLCache : Cache
  consecutiveLosses : Int
  stopUntil : ℚ

/-- One minute, in seconds. -/
def minuteSec : ℚ := 60

/-- One hour, in seconds. -/
def hourSec : ℚ := 3600

/-- Go `updateConsecutiveLosses(pnl)` at wall-clock time `now`: PnL within
`floatEpsilon` of zero is ignored; a loss increments the streak and, for a
streak of 2 / 3 / ≥4, installs `stopUntil = now + 45min / 24h / 72h` (a
streak of 1 installs no pause); a gain resets the streak to 0. -/
def updateConsecutiveLosses (st : TraderState) (now pnl : ℚ) : TraderState :=
  if |pnl| < floatEpsilon then st
  else if pnl < 0 then
    let losses := st.consecutiveLosses + 1
    let pauseDuration : ℚ :=
      if losses = 2 then 45 * minuteSec
      else if losses = 3 then 24 * hourSec
      else if losses ≥ 4 then 72 * hourSec
      else 0
    if pauseDuration > 0 then
      { st with consecutiveLosses := losses, stopUntil := now + pauseDuration }
    else
      { st with consecutiveLosses := losses }
  else
    { st with consecutiveLosses := 0 }

/-- Go `handleRealizedPnL(symbol, side, closedQuantity, closePrice)` at time
`now`: no-op for non-positive quantity or a missing meta entry; otherwise
decrement the cached quantity, deleting the meta, stop-loss and take-profit
entries when the remainder falls below `floatEpsilon` (the peak-PnL entry
is not touched), then feed the signed realized PnL to
`updateConsecutiveLosses`. -/
def handleRealizedPnL (st : TraderState) (symbol side : String)
    (closedQuantity closePrice now : ℚ) : TraderState :=
  if closedQuantity ≤ 0 then st
  else
    let key := positionKey symbol side
    match st.positionMeta key with
    | none => st
    | some meta =>
      let remaining := meta.quantity - closedQuantity
      let st1 :=
        if remaining < floatEpsilon then
          { st with
            positionMeta := metaDel st.positionMeta key
            stopLossCache := mapDel st.stopLossCache key
            takeProfitCache := mapDel st.takeProfitCache key }
        else
          { st with
            positionMeta := metaSet st.positionMeta key { meta with quantity := remaining } }
      let pnl :=
        if toLowerStr side = "long" then (closePrice - meta.entryPrice) * closedQuantity
        else (meta.entryPrice - closePrice) * closedQuantity
      updateConsecutiveLosses st1 now pnl

/-- Go `getPositionQuantity(symbol, side)`: the cached quantity, 0 when no meta
entry exists. -/
def getPositionQuantity (st : TraderState) (symbol side : String) : ℚ :=
  match st.positionMeta (positionKey symbol side) with
  | some meta => meta.quantity
  | none => 0

/-- The cache effect of the success path of `executeCloseLongWithRecord`:
read the cached quantity, issue the full close (external), then realize
PnL through `handleRealizedPnL`. -/
def executeCloseLongWithRecord (st : TraderState) (symbol : String)
    (closePrice now : ℚ) : TraderState :=
  handleRealizedPnL st symbol "long" (getPositionQuantity st symbol "long") closePrice now

/-- The cache effect of the success path of `executeCloseShortWithRecord`. -/
def executeCloseShortWithRecord (st : TraderState) (symbol : String)
    (closePrice now : ℚ) : TraderState :=
  handleRealizedPnL st symbol "short" (getPositionQuantity st symbol "short") closePrice now

/-- Go `estimateStepSize(symbol)`: 0.001 for BTC-prefixed symbols, 0.01 for
ETH-prefixed, 0.1 otherwise (uppercased prefix heuristic). -/
def estimateStepSize (symbol : String) : ℚ :=
  if strStartsWith (toUpperStr symbol) "BTC" then 1/1000
  else if strStartsWith (toUpperStr symbol) "ETH" then 1/100
  else 1/10

/-- Go `roundQuantity(symbol, qty)`: floor `qty` to the venue step, with the
source's `1e-9` slack added before flooring. -/
def roundQuantity (symbol : String) (qty : ℚ) : ℚ :=
  let step0 := estimateStepSize symbol
  let step := if step0 ≤ 0 then 1/1000000 else step0
  (⌊qty / step + 1/1000000000⌋ : ℚ) * step

/-- The quantity computation of `executePartialCloseWithRecord`: validate
`0 < closePercentage ≤ 100`, compute the fraction of the total, bump an
amount below one step up to the step (or to the full remainder when the
total itself is within one step plus `floatEpsilon`), floor-round to the
step, and reject a result that rounds to nothing. -/
def partialCloseQuantity (symbol : String) (totalQuantity closePercentage : ℚ) :
    Except String ℚ :=
  if closePercentage ≤ 0 ∨ closePercentage > 100 then
    .error "close percentage out of range"
  else
    let closeQuantity0 := totalQuantity * (closePercentage / 100)
    let minQty := estimateStepSize symbol
    let closeQuantity1 :=
      if closeQuantity0 < minQty then
        if totalQuantity ≤ minQty + floatEpsilon then totalQuantity else minQty
      else closeQuantity0
    let rounded := roundQuantity symbol closeQuantity1
    if rounded ≤ 0 then .error "quantity rounds to zero" else .ok rounded

/-- The state effect of the success path of
`executePartialCloseWithRecord`: compute the rounded close quantity from
the live total, issue the close (external), then realize PnL on the closed
slice.  Returns the executed quantity together with the new state. -/
def executePartialCloseWithRecord (st : TraderState)
    (symbol positionSide : String) (totalQuantity closePercentage closePrice now : ℚ) :
    Except String (ℚ × TraderState) :=
  match partialCloseQuantity symbol totalQuantity closePercentage with
  | .error e => .error e
  | .ok closeQuantity =>
    .ok (closeQuantity,
      handleRealizedPnL st symbol (toLowerStr positionSide) closeQuantity closePrice now)

/-- Go `storeStopLoss(symbol, side, stopLoss)`: cache the confirmed stop. -/
def storeStopLoss (stopLossCache : Cache) (symbol side : String)
    (stopLoss : ℚ) : Cache :=
  mapSet stopLossCache (positionKey symbol side) stopLoss

/-- Go `storeTakeProfit(symbol, side, takeProfit)`: cache the confirmed TP. -/
def storeTakeProfit (takeProfitCache : Cache) (symbol side : String)
    (takeProfit : ℚ) : Cache :=
  mapSet takeProfitCache (positionKey symbol side) takeProfit

/-- Go `decision.PositionInfo`: one open position as seen in the decision
context. -/
structure PositionInfo where
  symbol : String
  side : String
  entryPrice : ℚ
  markPrice : ℚ
  quantity : ℚ
  deriving DecidableEq

/-- Go `findPositionSide(positions, symbol)`: the lowercased side of the first
position matching the symbol case-insensitively with positive quantity;
empty string when none matches. -/
def findPositionSide (positions : List PositionInfo) (symbol : String) : String :=
  match positions.find? (fun pos =>
      toLowerStr pos.symbol = toLowerStr symbol ∧ pos.quantity > 0) with
  | some pos => toLowerStr pos.side
  | none => ""

/-- The price resolution inside `buildAutoTakeProfitDecisions`: the market
map's current price when present and positive, else the snapshot's mark
price. -/
def autoTPCurrentPrice (priceOf : String → Option ℚ) (pos : PositionInfo) : ℚ :=
  match priceOf pos.symbol with
  | some p => if p > 0 then p else pos.markPrice
  | none => pos.markPrice

/-- The target computation of the `buildAutoTakeProfitDecisions` loop body:
risk from the cached stop, favorable excursion, R-multiple banding, then
the target price with the 0.3R clamp when the raw target already sits
behind the current price.  `none` models every `continue`. -/
def autoTPTarget (stopLossCache : Cache) (pos : PositionInfo)
    (currentPrice : ℚ) : Option ℚ :=
  let side := toLowerStr pos.side
  match stopLossCache (positionKey pos.symbol side) with
  | none => none
  | some stop =>
    let entry := pos.entryPrice
    let risk := if side = "long" then entry - stop else stop - entry
    if risk ≤ floatEpsilon then none
    else
      let favorable :=
        if side = "long" then currentPrice - entry else entry - currentPrice
      if favorable ≤ risk then none
      else
        let rMultiple := favorable / risk
        let targetMultipleOpt : Option ℚ :=
          if rMultiple ≥ 3 then some (rMultiple + 1/2)
          else if rMultiple ≥ 2 then some (7/2)
          else if rMultiple ≥ 3/2 then some (5/2)
          else none
        match targetMultipleOpt with
        | none => none
        | some targetMultiple =>
          if side = "long" then
            let d := entry + targetMultiple * risk
            some (if d ≤ currentPrice then currentPrice + (3/10) * risk else d)
          else
            let d := entry - targetMultiple * risk
            some (if d ≥ currentPrice then currentPrice - (3/10) * risk else d)

/-- The improvement filter of `buildAutoTakeProfitDecisions`: a long target
is suppressed when it does not exceed the cached TP by more than the
`1e-5` relative tolerance, a short target when it does not undercut it by
more than that tolerance; no cached TP means no suppression. -/
def autoTPSuppressed (takeProfitCache : Cache) (pos : PositionInfo)
    (desiredTP : ℚ) : Bool :=
  let side := toLowerStr pos.side
  match takeProfitCache (positionKey pos.symbol side) with
  | none => false
  | some tp =>
    (side = "long" ∧ desiredTP ≤ tp * (1 + 1/100000)) ∨
    (side = "short" ∧ desiredTP ≥ tp * (1 - 1/100000))

/-- The `existing` key set `buildAutoTakeProfitDecisions` seeds from the
base decisions: `UPPER(symbol) + "_" + side` for every explicit
`update_take_profit`, with side resolved from the open positions
(defaulting to long). -/
def autoTPExistingKeys (positions : List PositionInfo)
    (base : List Decision) : List String :=
  (base.filter (fun d => d.action = "update_take_profit")).map (fun d =>
    let side0 := findPositionSide positions d.symbol
    let side := if side0 = "" then "long" else side0
    toUpperStr d.symbol ++ "_" ++ side)

/-- The position loop of `buildAutoTakeProfitDecisions`, threading the
`existing` key set (a key is added only when a decision is emitted). -/
def buildAutoTakeProfitDecisionsAux (stopLossCache takeProfitCache : Cache)
    (priceOf : String → Option ℚ) :
    List String → List PositionInfo → List Decision
  | _, [] => []
  | existing, pos :: rest =>
    let side := toLowerStr pos.side
    let key := toUpperStr pos.symbol ++ "_" ++ side
    if key ∈ existing then
      buildAutoTakeProfitDecisionsAux stopLossCache takeProfitCache priceOf existing rest
    else
      let currentPrice := autoTPCurrentPrice priceOf pos
      match autoTPTarget stopLossCache pos currentPrice with
      | none =>
        buildAutoTakeProfitDecisionsAux stopLossCache takeProfitCache priceOf existing rest
      | some desiredTP =>
        if autoTPSuppressed takeProfitCache pos desiredTP then
          buildAutoTakeProfitDecisionsAux stopLossCache takeProfitCache priceOf existing rest
        else
          { symbol := pos.symbol, action := "update_take_profit",
            newTakeProfit := desiredTP : Decision } ::
            buildAutoTakeProfitDecisionsAux stopLossCache takeProfitCache priceOf
              (key :: existing) rest

/-- Go `buildAutoTakeProfitDecisions(ctx, base)`: the synthesized
`update_take_profit` decisions for open positions the base decisions left
untouched. -/
def buildAutoTakeProfitDecisions (stopLossCache takeProfitCache : Cache)
    (positions : List PositionInfo) (priceOf : String → Option ℚ)
    (base : List Decision) : List Decision :=
  buildAutoTakeProfitDecisionsAux stopLossCache takeProfitCache priceOf
    (autoTPExistingKeys positions base) positions

/-- Go `ensureMidTermEntryFilters(data, direction)`: requires the 15m
indicator block to be present and populated (fails closed), rejects longs
on RSI7 > 68 or price above `EMA20 + 0.6×ATR14`, symmetric for shorts. -/
def ensureMidTermEntryFilters (data : Option MarketData)
    (direction : String) : Except String Unit :=
  match data with
  | none => .error "missing 15m indicators"
  | some d =>
    match d.midTermContext with
    | none => .error "missing 15m indicators"
    | some mt =>
      if mt.atr14 ≤ 0 ∨ mt.ema20 = 0 ∨ mt.rsi7 ≤ 0 then
        .error "15m indicators not ready"
      else if direction = "long" then
        if mt.rsi7 > 68 then .error "15m RSI above 68"
        else if d.currentPrice > mt.ema20 + (6/10) * mt.atr14 then
          .error "price above 15m EMA band"
        else .ok ()
      else if direction = "short" then
        if mt.rsi7 < 32 then .error "15m RSI below 32"
        else if d.currentPrice < mt.ema20 - (6/10) * mt.atr14 then
          .error "price below 15m EMA band"
        else .ok ()
      else .error "unknown direction"

/-- Go `ensureShortTermMomentum(data, direction)`: rejects longs on
`MACD < −ε` and shorts on `MACD > ε`, and, when at least two intraday RSI
samples exist, requires the last RSI step to be consistent with the
requested direction within a 0.2 tolerance. -/
def ensureShortTermMomentum (data : Option MarketData)
    (direction : String) : Except String Unit :=
  match data with
  | none => .error "missing short-term indicators"
  | some d =>
    let macdCheck : Except String Unit :=
      if direction = "long" then
        if d.currentMACD < -floatEpsilon then .error "3m MACD still negative"
        else .ok ()
      else if direction = "short" then
        if d.currentMACD > floatEpsilon then .error "3m MACD still positive"
        else .ok ()
      else .error "unknown direction"
    match macdCheck with
    | .error e => .error e
    | .ok _ =>
      let vals := d.intradayRSI7
      if vals.length ≥ 2 then
        let last := vals.getD (vals.length - 1) 0
        let prev := vals.getD (vals.length - 2) 0
        let slope := last - prev
        if direction = "long" ∧ slope < -(2/10) then
          .error "3m RSI not confirming upturn"
        else if direction = "short" ∧ slope > 2/10 then
          .error "3m RSI not confirming downturn"
        else .ok ()
      else .ok ()

/-- A `(symbol, side)` pair from a `GetPositions` snapshot row, as read by
the duplicate-position gates. -/
structure SnapshotRow where
  symbol : String
  side : String
  deriving DecidableEq

/-- The guard prefix of `executeOpenLongWithRecord`, up to (and including)
the market-data filters: confidence gate, duplicate-position gate,
mid-term entry filters and short-term momentum.  The duplicate gate only
runs when the positions query succeeded (`err == nil` in the source): on a
query error it is skipped entirely.  Returns the market data handed to the
subsequent balance/sizing stages. -/
def executeOpenLongPrefix (confidence : Int)
    (positionsResult : Except String (List SnapshotRow)) (symbol : String)
    (marketDataResult : Except String MarketData) : Except String MarketData :=
  if confidence < minConfidence then .error "confidence below minimum" else
  let dup : Bool :=
    match positionsResult with
    | .ok positions => positions.any (fun p => p.symbol = symbol ∧ p.side = "long")
    | .error _ => false
  if dup then .error "existing long position, refusing to stack" else
  match marketDataResult with
  | .error e => .error e
  | .ok marketData =>
    match ensureMidTermEntryFilters (some marketData) "long" with
    | .error e => .error e
    | .ok _ =>
      match ensureShortTermMomentum (some marketData) "long" with
      | .error e => .error e
      | .ok _ => .ok marketData

/-- The guard prefix of `executeOpenShortWithRecord`, symmetric to the long
side. -/
def executeOpenShortPrefix (confidence : Int)
    (positionsResult : Except String (List SnapshotRow)) (symbol : String)
    (marketDataResult : Except String MarketData) : Except String MarketData :=
  if confidence < minConfidence then .error "confidence below minimum" else
  let dup : Bool :=
    match positionsResult with
    | .ok positions => positions.any (fun p => p.symbol = symbol ∧ p.side = "short")
    | .error _ => false
  if dup then .error "existing short position, refusing to stack" else
  match marketDataResult with
  | .error e => .error e
  | .ok marketData =>
    match ensureMidTermEntryFilters (some marketData) "short" with
    | .error e => .error e
    | .ok _ =>
      match ensureShortTermMomentum (some marketData) "short" with
      | .error e => .error e
      | .ok _ => .ok marketData

/-- C1 (counterexample): with a cached stop of 100 for a long position, an
`update_stop_loss` to the identical price 100 passes the ratchet guard of
`ensureStopLossTightening` even though 100 is not strictly greater than the
cached 100, refuting the claim that an update is accepted only when the new
stop is strictly more protective. -/
theorem C1_counterexample :
    ensureStopLossTightening
        (mapSet emptyCache (positionKey "BTCUSDT" "LONG") 100)
        "BTCUSDT" "LONG" 100 = .ok
      ∧ ¬ ((100 : ℚ) > 100) := by
  constructor
  · decide
  · decide

/-- C1 (amended): with a prior cached value the ratchet guard accepts a new
stop iff it does not loosen the cached one by more than `floatEpsilon`
(long: `newStop + ε ≥ previous`; otherwise: `newStop − ε ≤ previous`); a
rejection returns the error carrying both the cached and the new stop; a
first-ever write (no cache entry) always passes. -/
theorem C1_ratchet_guard (cache : Cache) (symbol side : String) (newStop : ℚ) :
    (cache (positionKey symbol side) = none →
      ensureStopLossTightening cache symbol side newStop = .ok) ∧
    ∀ previous, cache (positionKey symbol side) = some previous →
      (toUpperStr side = "LONG" →
        (newStop + floatEpsilon < previous →
          ensureStopLossTightening cache symbol side newStop = .err previous newStop) ∧
        (previous ≤ newStop + floatEpsilon →
          ensureStopLossTightening cache symbol side newStop = .ok)) ∧
      (toUpperStr side ≠ "LONG" →
        (newStop - floatEpsilon > previous →
          ensureStopLossTightening cache symbol side newStop = .err previous newStop) ∧
        (newStop - floatEpsilon ≤ previous →
          ensureStopLossTightening cache symbol side newStop = .ok)) := by
  constructor
  · intro h
    simp [ensureStopLossTightening, h]
  · intro previous h
    constructor
    · intro hside
      constructor
      · intro hlt
        simp [ensureStopLossTightening, h, hside, hlt]
      · intro hge
        simp [ensureStopLossTightening, h, hside, not_lt.mpr hge]
    · intro hside
      constructor
      · intro hgt
        simp [ensureStopLossTightening, h, hside, hgt]
      · intro hle
        simp [ensureStopLossTightening, h, hside, not_lt.mpr hle]

/-- C1 witness: the amended guard applied at a concrete rejection — cached
long stop 100, proposed stop 99 — yields the error carrying both values. -/
theorem C1_witness :
    ensureStopLossTightening
        (mapSet emptyCache (positionKey "ETHUSDT" "LONG") 100)
        "ETHUSDT" "LONG" 99 = .err 100 99 :=
  (((C1_ratchet_guard
      (mapSet emptyCache (positionKey "ETHUSDT" "LONG") 100)
      "ETHUSDT" "LONG" 99).2 100 (by decide)).1 (by decide)).1 (by decide)


/-- C2 (counterexample): a triggered drawdown protection whose emergency
close fails does not skip the dynamic-protection pass — the tick falls
through to `applyDynamicProtection` — refuting the claim that the
dynamic-protection stop update for the position is (unconditionally)
skipped once the retracement threshold fires. -/
theorem C2_counterexample :
    (checkPositionDrawdownStep
        (mapSet emptyCache (positionKey "BTCUSDT" "long") 10)
        ⟨"BTCUSDT", "long", 100, 201/2, 1, some 10⟩ false).2
      = [.emergencyClose, .dynamicProtection] := by decide

/-- C2 (amended): when the cached peak (after the monotonic update) is
positive, at or above the bucket breakeven threshold, the current ROI has
retraced below it and the retracement meets the bucket drawdown threshold,
the emergency close is issued before any other action for the position in
that tick; when the close succeeds, the dynamic-protection pass is skipped
and the peak entry is cleared; when it fails, the dynamic-protection pass
still runs and the peak entry is retained. -/
theorem C2_drawdown_close (peakCache : Cache) (pos : DrawdownPos)
    (closeSucceeds : Bool) (peak : ℚ)
    (hq : ¬ |pos.positionAmt| < floatEpsilon)
    (hpk : updatePeakPnL peakCache pos.symbol pos.side
        (positionRoiPct pos.side pos.entryPrice pos.markPrice (drawdownLeverage pos))
        (positionKey pos.symbol pos.side) = some peak)
    (hpos : peak > 0)
    (hlt : positionRoiPct pos.side pos.entryPrice pos.markPrice (drawdownLeverage pos) < peak)
    (hbe : peak ≥ (roiProfileFor (drawdownLeverage pos)).breakeven)
    (hdd : ((peak - positionRoiPct pos.side pos.entryPrice pos.markPrice (drawdownLeverage pos)) / peak) * 100
        ≥ (roiProfileFor (drawdownLeverage pos)).drawdown) :
    ((checkPositionDrawdownStep peakCache pos closeSucceeds).2.head? = some .emergencyClose) ∧
    (closeSucceeds = true →
      (checkPositionDrawdownStep peakCache pos closeSucceeds).2 = [.emergencyClose] ∧
      (checkPositionDrawdownStep peakCache pos closeSucceeds).1 (positionKey pos.symbol pos.side) = none) ∧
    (closeSucceeds = false →
      (checkPositionDrawdownStep peakCache pos closeSucceeds).2 = [.emergencyClose, .dynamicProtection] ∧
      (checkPositionDrawdownStep peakCache pos closeSucceeds).1 (positionKey pos.symbol pos.side) = some peak) := by
  have hstep : checkPositionDrawdownStep peakCache pos closeSucceeds =
      if closeSucceeds then
        (clearPeakPnLCache (updatePeakPnL peakCache pos.symbol pos.side
            (positionRoiPct pos.side pos.entryPrice pos.markPrice (drawdownLeverage pos)))
          pos.symbol pos.side, [.emergencyClose])
      else
        (updatePeakPnL peakCache pos.symbol pos.side
            (positionRoiPct pos.side pos.entryPrice pos.markPrice (drawdownLeverage pos)),
          [.emergencyClose, .dynamicProtection]) := by
    simp only [checkPositionDrawdownStep]
    rw [if_neg hq]
    simp only [hpk]
    rw [if_pos ⟨hpos, hlt⟩, if_pos ⟨hbe, hdd⟩]
  rw [hstep]
  cases closeSucceeds with
  | true =>
    refine ⟨rfl, fun _ => ⟨rfl, ?_⟩, fun h => by simp at h⟩
    simp [clearPeakPnLCache, mapDel]
  | false =>
    exact ⟨rfl, fun h => by simp at h, fun _ => ⟨rfl, hpk⟩⟩

/-- C2 witness: the amended theorem at a 10× long opened at 100, marked at
100.5 (ROI 5%), cached peak 10% — retracement 50% ≥ bucket drawdown 30%,
peak ≥ breakeven 2% — with a succeeding close: the only action is the
emergency close and the peak entry is cleared. -/
theorem C2_witness :
    (checkPositionDrawdownStep
        (mapSet emptyCache (positionKey "BTCUSDT" "long") 10)
        ⟨"BTCUSDT", "long", 100, 201/2, 1, some 10⟩ true).2 = [.emergencyClose] ∧
    (checkPositionDrawdownStep
        (mapSet emptyCache (positionKey "BTCUSDT" "long") 10)
        ⟨"BTCUSDT", "long", 100, 201/2, 1, some 10⟩ true).1
      (positionKey "BTCUSDT" "long") = none :=
  ((C2_drawdown_close (mapSet emptyCache (positionKey "BTCUSDT" "long") 10)
      ⟨"BTCUSDT", "long", 100, 201/2, 1, some 10⟩ true 10
      (by decide) (by decide) (by decide) (by decide) (by decide) (by decide)).2.1 rfl)


/-- Helper for C3: a bound produced by the fallback branch of
`allowedStopDistance` is positive. -/
theorem allowedStopDistanceFallback_pos (data : MarketData) (allowed : ℚ)
    (h : allowedStopDistanceFallback data = some allowed) : 0 < allowed := by
  unfold allowedStopDistanceFallback at h
  by_cases hc : max (fallbackMidCandidate data) (fallbackPriceCandidate data) ≤ 0
  · rw [if_pos hc] at h
    cases h
  · rw [if_neg hc] at h
    cases h
    exact lt_of_not_le hc

/-- C3 (counterexample): with a positive 1h ATR14 of 1, a 15m ATR14 of 100
and price 10000, the code allows only a stop distance of 1 — it never takes
the larger of the three candidates once the 1h ATR14 is positive — so a
stop 100 away (within the claim's `max(1, 150, 150) = 150`) is rejected,
refuting the claimed formula for the allowed distance. -/
theorem C3_counterexample :
    stopDistanceCheck ⟨10000, 0, some ⟨100, 50, 50⟩, some ⟨1⟩, []⟩ 9900 = false ∧
    |(9900:ℚ) - 10000| ≤ specAllowedStopDistance ⟨10000, 0, some ⟨100, 50, 50⟩, some ⟨1⟩, []⟩ ∧
    allowedStopDistance ⟨10000, 0, some ⟨100, 50, 50⟩, some ⟨1⟩, []⟩ = some 1 ∧
    specAllowedStopDistance ⟨10000, 0, some ⟨100, 50, 50⟩, some ⟨1⟩, []⟩ = 150 := by
  refine ⟨by decide, by decide, by decide, by decide⟩

/-- C3 (amended): the allowed stop distance equals the 1h ATR14 whenever
that is present and positive; only when it is absent or non-positive does
it fall back to the larger of `1.5 × 15m ATR14` and `1.5% × price`
(`allowedStopDistanceFallback`); any derived bound is positive, and the
guardrail accepts exactly the stops whose distance from the current price
does not exceed the bound (rejecting when no bound is derivable). -/
theorem C3_stop_distance (data : MarketData) (stopLoss : ℚ) :
    (∀ lt, data.longerTermContext = some lt → lt.atr14 > 0 →
      allowedStopDistance data = some lt.atr14) ∧
    (data.longerTermContext = none →
      allowedStopDistance data = allowedStopDistanceFallback data) ∧
    (∀ lt, data.longerTermContext = some lt → ¬ lt.atr14 > 0 →
      allowedStopDistance data = allowedStopDistanceFallback data) ∧
    (∀ allowed, allowedStopDistance data = some allowed → 0 < allowed) ∧
    (∀ allowed, allowedStopDistance data = some allowed →
      (stopDistanceCheck data stopLoss = true ↔ |stopLoss - data.currentPrice| ≤ allowed)) ∧
    (allowedStopDistance data = none → stopDistanceCheck data stopLoss = false) := by
  have hpos : ∀ allowed, allowedStopDistance data = some allowed → 0 < allowed := by
    intro allowed h
    simp only [allowedStopDistance] at h
    cases hlt : data.longerTermContext with
    | none =>
      rw [hlt] at h
      exact allowedStopDistanceFallback_pos data allowed h
    | some lt =>
      simp only [hlt] at h
      by_cases hatr : lt.atr14 > 0
      · rw [if_pos hatr] at h
        cases h
        exact hatr
      · rw [if_neg hatr] at h
        exact allowedStopDistanceFallback_pos data allowed h
  refine ⟨?_, ?_, ?_, hpos, ?_, ?_⟩
  · intro lt h hatr
    simp [allowedStopDistance, h, hatr]
  · intro h
    simp [allowedStopDistance, h]
  · intro lt h hatr
    simp [allowedStopDistance, h, hatr]
  · intro allowed h
    simp only [stopDistanceCheck, h]
    rw [if_neg (not_le.mpr (hpos allowed h))]
    simp [not_lt]
  · intro h
    simp only [stopDistanceCheck, h]

/-- C3 witness: price 100, 1h ATR14 = 10 — the allowed distance is 10 and a
stop at 95 (distance 5) passes the check. -/
theorem C3_witness :
    allowedStopDistance ⟨100, 0, none, some ⟨10⟩, []⟩ = some 10 ∧
    stopDistanceCheck ⟨100, 0, none, some ⟨10⟩, []⟩ 95 = true :=
  ⟨(C3_stop_distance ⟨100, 0, none, some ⟨10⟩, []⟩ 95).1 ⟨10⟩ rfl (by decide),
   ((C3_stop_distance ⟨100, 0, none, some ⟨10⟩, []⟩ 95).2.2.2.2.1 10
      ((C3_stop_distance ⟨100, 0, none, some ⟨10⟩, []⟩ 95).1 ⟨10⟩ rfl (by decide))).mpr
     (by decide)⟩


/-- Helper for C4: effect of a losing close (`|pnl| ≥ ε`, `pnl < 0`) on the
circuit breaker, as one equation. -/
theorem updateConsecutiveLosses_loss (st : TraderState) (now pnl : ℚ)
    (h1 : ¬ |pnl| < floatEpsilon) (h2 : pnl < 0) :
    updateConsecutiveLosses st now pnl =
      { st with
        consecutiveLosses := st.consecutiveLosses + 1
        stopUntil :=
          if st.consecutiveLosses + 1 = 2 then now + 45 * minuteSec
          else if st.consecutiveLosses + 1 = 3 then now + 24 * hourSec
          else if st.consecutiveLosses + 1 ≥ 4 then now + 72 * hourSec
          else st.stopUntil } := by
  by_cases e2 : st.consecutiveLosses + 1 = 2
  · norm_num [updateConsecutiveLosses, h1, h2, e2, minuteSec]
  · by_cases e3 : st.consecutiveLosses + 1 = 3
    · norm_num [updateConsecutiveLosses, h1, h2, e2, e3, hourSec]
    · by_cases e4 : st.consecutiveLosses + 1 ≥ 4
      · norm_num [updateConsecutiveLosses, h1, h2, e2, e3, e4, hourSec]
      · norm_num [updateConsecutiveLosses, h1, h2, e2, e3, e4]

/-- Helper for C4: effect of a winning close (`|pnl| ≥ ε`, `pnl ≥ 0`) on
the circuit breaker: the streak resets, the pause deadline is untouched. -/
theorem updateConsecutiveLosses_gain (st : TraderState) (now pnl : ℚ)
    (h1 : ¬ |pnl| < floatEpsilon) (h2 : ¬ pnl < 0) :
    updateConsecutiveLosses st now pnl = { st with consecutiveLosses := 0 } := by
  unfold updateConsecutiveLosses
  rw [if_neg h1, if_neg h2]

/-- C4 (counterexample): a losing close arriving at streak 0 (new streak 1)
leaves `stopUntil` unchanged — here at its prior value 500 — rather than
setting it to `now + 0 = 100` as the claim's "duration 0 for streak 1"
prescribes; an inherited future pause deadline thus survives instead of
being overwritten. -/
theorem C4_counterexample :
    (updateConsecutiveLosses ⟨emptyMetaMap, emptyCache, emptyCache, emptyCache, 0, 500⟩
        100 (-1)).stopUntil = 500 ∧
    (500 : ℚ) ≠ 100 + 0 := by
  exact ⟨by decide, by decide⟩

/-- C4 (amended): a realized PnL within ε of zero is ignored; a loss beyond
ε increments the streak and installs `stopUntil = now + 45min / 24h / 72h`
for streaks 2 / 3 / ≥4 respectively, while a streak of 1 leaves `stopUntil`
unchanged (no pause is installed); a gain beyond ε resets the streak to 0
and leaves `stopUntil` unchanged.  In particular three consecutive losing
closes starting from streak 0 end with streak 3 and `stopUntil` = 24 hours
past the third close. -/
theorem C4_circuit_breaker (st : TraderState) (now pnl : ℚ) :
    (|pnl| < floatEpsilon → updateConsecutiveLosses st now pnl = st) ∧
    (¬ |pnl| < floatEpsilon → pnl < 0 →
      (updateConsecutiveLosses st now pnl).consecutiveLosses = st.consecutiveLosses + 1 ∧
      (st.consecutiveLosses + 1 = 2 →
        (updateConsecutiveLosses st now pnl).stopUntil = now + 45 * minuteSec) ∧
      (st.consecutiveLosses + 1 = 3 →
        (updateConsecutiveLosses st now pnl).stopUntil = now + 24 * hourSec) ∧
      (st.consecutiveLosses + 1 ≥ 4 →
        (updateConsecutiveLosses st now pnl).stopUntil = now + 72 * hourSec) ∧
      (st.consecutiveLosses + 1 ≤ 1 →
        (updateConsecutiveLosses st now pnl).stopUntil = st.stopUntil)) ∧
    (¬ |pnl| < floatEpsilon → ¬ pnl < 0 →
      (updateConsecutiveLosses st now pnl).consecutiveLosses = 0 ∧
      (updateConsecutiveLosses st now pnl).stopUntil = st.stopUntil) ∧
    (st.consecutiveLosses = 0 → pnl ≤ -floatEpsilon → ∀ t1 t2 t3 : ℚ,
      (updateConsecutiveLosses (updateConsecutiveLosses
          (updateConsecutiveLosses st t1 pnl) t2 pnl) t3 pnl).consecutiveLosses = 3 ∧
      (updateConsecutiveLosses (updateConsecutiveLosses
          (updateConsecutiveLosses st t1 pnl) t2 pnl) t3 pnl).stopUntil
        = t3 + 24 * hourSec) := by
  refine ⟨?_, ?_, ?_, ?_⟩
  · intro h
    unfold updateConsecutiveLosses
    rw [if_pos h]
  · intro h1 h2
    rw [updateConsecutiveLosses_loss st now pnl h1 h2]
    refine ⟨rfl, fun e2 => ?_, fun e3 => ?_, fun e4 => ?_, fun e1 => ?_⟩
    · simp [e2]
    · simp [e3, show ¬ st.consecutiveLosses + 1 = 2 by omega]
    · simp [e4, show ¬ st.consecutiveLosses + 1 = 2 by omega,
        show ¬ st.consecutiveLosses + 1 = 3 by omega]
    · simp [show ¬ st.consecutiveLosses + 1 = 2 by omega,
        show ¬ st.consecutiveLosses + 1 = 3 by omega,
        show ¬ st.consecutiveLosses + 1 ≥ 4 by omega]
  · intro h1 h2
    rw [updateConsecutiveLosses_gain st now pnl h1 h2]
    exact ⟨rfl, rfl⟩
  · intro hz hp
    intro t1 t2 t3
    have h1 : ¬ |pnl| < floatEpsilon := by
      rw [abs_of_nonpos (by nlinarith [show (0:ℚ) < floatEpsilon by norm_num [floatEpsilon]])]
      nlinarith
    have h2 : pnl < 0 := by
      nlinarith [show (0:ℚ) < floatEpsilon by norm_num [floatEpsilon]]
    rw [updateConsecutiveLosses_loss st t1 pnl h1 h2,
        updateConsecutiveLosses_loss _ t2 pnl h1 h2,
        updateConsecutiveLosses_loss _ t3 pnl h1 h2]
    norm_num [hz]

/-- C4 witness: three losing closes of −1 at times 10, 20, 30 from a fresh
state end at streak 3 with the 24-hour pause anchored at the third close. -/
theorem C4_witness :
    (updateConsecutiveLosses (updateConsecutiveLosses
        (updateConsecutiveLosses
          ⟨emptyMetaMap, emptyCache, emptyCache, emptyCache, 0, 0⟩ 10 (-1)) 20 (-1)) 30
        (-1)).consecutiveLosses = 3 ∧
    (updateConsecutiveLosses (updateConsecutiveLosses
        (updateConsecutiveLosses
          ⟨emptyMetaMap, emptyCache, emptyCache, emptyCache, 0, 0⟩ 10 (-1)) 20 (-1)) 30
        (-1)).stopUntil = 30 + 24 * hourSec :=
  (C4_circuit_breaker ⟨emptyMetaMap, emptyCache, emptyCache, emptyCache, 0, 0⟩ 0
      (-1)).2.2.2 rfl (by decide) 10 20 30


/-- Helper for C5: `passMin` preserves the length of the scanned suffix. -/
theorem passMin_length (x : Decision) (l : List Decision) :
    (passMin x l).2.length = l.length := by
  induction l generalizing x with
  | nil => rfl
  | cons y ys ih =>
    unfold passMin
    by_cases h : getActionPriority y.action < getActionPriority x.action <;>
      simp [h, ih]

/-- Helper for C5: the carried element together with the updated suffix is a
permutation of the input. -/
theorem passMin_perm (x : Decision) (l : List Decision) :
    ((passMin x l).1 :: (passMin x l).2).Perm (x :: l) := by
  induction l generalizing x with
  | nil => exact List.Perm.refl _
  | cons y ys ih =>
    unfold passMin
    by_cases h : getActionPriority y.action < getActionPriority x.action
    · simp only [h, if_true]
      exact (List.Perm.swap x (passMin y ys).1 (passMin y ys).2).trans
        ((ih y).cons x)
    · simp only [h, if_false]
      exact (List.Perm.swap y (passMin x ys).1 (passMin x ys).2).trans
        ((ih x).cons y) |>.trans (List.Perm.swap x y ys)

/-- Helper for C5: the carried element never has larger priority than the
element it started from. -/
theorem passMin_head (x : Decision) (l : List Decision) :
    getActionPriority (passMin x l).1.action ≤ getActionPriority x.action := by
  induction l generalizing x with
  | nil => exact le_rfl
  | cons y ys ih =>
    unfold passMin
    by_cases h : getActionPriority y.action < getActionPriority x.action
    · simp only [h, if_true]
      exact le_of_lt (lt_of_le_of_lt (ih y) h)
    · simp only [h, if_false]
      exact ih x

/-- Helper for C5: the carried element has priority at most that of every
element of the updated suffix. -/
theorem passMin_min (x : Decision) (l : List Decision) :
    ∀ z ∈ (passMin x l).2,
      getActionPriority (passMin x l).1.action ≤ getActionPriority z.action := by
  induction l generalizing x with
  | nil => intro z hz; cases hz
  | cons y ys ih =>
    intro z hz
    unfold passMin at hz ⊢
    by_cases h : getActionPriority y.action < getActionPriority x.action
    · simp only [h, if_true] at hz ⊢
      rcases List.mem_cons.mp hz with hzx | hzr
      · subst hzx
        exact le_of_lt (lt_of_le_of_lt (passMin_head y ys) h)
      · exact ih y z hzr
    · simp only [h, if_false] at hz ⊢
      rcases List.mem_cons.mp hz with hzy | hzr
      · subst hzy
        exact le_trans (passMin_head x ys) (le_of_not_lt h)
      · exact ih x z hzr

/-- Helper for C5: the swap loops permute their input, for any fuel. -/
theorem sortLoopFuel_perm : ∀ (n : Nat) (l : List Decision),
    (sortLoopFuel n l).Perm l
  | 0, l => List.Perm.refl l
  | _ + 1, [] => List.Perm.refl []
  | n + 1, x :: xs => by
    unfold sortLoopFuel
    exact ((sortLoopFuel_perm n (passMin x xs).2).cons (passMin x xs).1).trans
      (passMin_perm x xs)

/-- Helper for C5: with enough fuel the swap loops sort by priority. -/
theorem sortLoopFuel_sorted : ∀ (n : Nat) (l : List Decision), l.length ≤ n →
    (sortLoopFuel n l).Pairwise
      (fun a b => getActionPriority a.action ≤ getActionPriority b.action)
  | 0, l, h => by
    have : l = [] := List.eq_nil_of_length_eq_zero (Nat.le_zero.mp h)
    subst this
    exact List.Pairwise.nil
  | _ + 1, [], _ => List.Pairwise.nil
  | n + 1, x :: xs, h => by
    unfold sortLoopFuel
    refine List.Pairwise.cons ?_
      (sortLoopFuel_sorted n (passMin x xs).2 ?_)
    · intro z hz
      exact passMin_min x xs z
        ((sortLoopFuel_perm n (passMin x xs).2).mem_iff.mp hz)
    · rw [passMin_length]
      exact Nat.le_of_succ_le_succ h

/-- C5: `sortDecisionsByPriority` returns a permutation of its input that is
sorted by action priority (closes and partial closes 1, stop/TP updates 2,
opens 3, hold/wait 4, unknown 999 last); consequently, in the sorted batch
every `open_long` sits strictly after every `close_long`. -/
theorem C5_sort_priority (decisions : List Decision) :
    (sortDecisionsByPriority decisions).Perm decisions ∧
    (sortDecisionsByPriority decisions).Pairwise
      (fun a b => getActionPriority a.action ≤ getActionPriority b.action) ∧
    ∀ i j (hi : i < (sortDecisionsByPriority decisions).length)
        (hj : j < (sortDecisionsByPriority decisions).length),
      ((sortDecisionsByPriority decisions).get ⟨i, hi⟩).action = "open_long" →
      ((sortDecisionsByPriority decisions).get ⟨j, hj⟩).action = "close_long" →
      j < i := by
  have hperm : (sortDecisionsByPriority decisions).Perm decisions := by
    unfold sortDecisionsByPriority
    by_cases h : decisions.length ≤ 1
    · rw [if_pos h]
    · rw [if_neg h]
      exact sortLoopFuel_perm decisions.length decisions
  have hsorted : (sortDecisionsByPriority decisions).Pairwise
      (fun a b => getActionPriority a.action ≤ getActionPriority b.action) := by
    unfold sortDecisionsByPriority
    by_cases h : decisions.length ≤ 1
    · rw [if_pos h]
      rcases decisions with _ | ⟨a, _ | ⟨b, rest⟩⟩
      · exact List.Pairwise.nil
      · exact List.pairwise_singleton _ a
      · simp at h
    · rw [if_neg h]
      exact sortLoopFuel_sorted decisions.length decisions le_rfl
  refine ⟨hperm, hsorted, ?_⟩
  intro i j hi hj hopen hclose
  rcases lt_trichotomy i j with hij | hij | hij
  · exfalso
    have hle := List.pairwise_iff_get.mp hsorted ⟨i, hi⟩ ⟨j, hj⟩
      (Fin.mk_lt_mk.mpr hij)
    rw [hopen, hclose] at hle
    exact absurd hle (by decide)
  · exfalso
    subst hij
    rw [hopen] at hclose
    exact absurd hclose (by decide)
  · exact hij

/-- C5 witness: a batch holding `open_long("X")` then `close_long("X")` is
reordered with the close first, and the theorem places the open strictly
after the close. -/
theorem C5_witness :
    sortDecisionsByPriority
        [{ symbol := "X", action := "open_long" }, { symbol := "X", action := "close_long" }]
      = [{ symbol := "X", action := "close_long" }, { symbol := "X", action := "open_long" }] ∧
    (0 : ℕ) < 1 :=
  ⟨by decide,
   (C5_sort_priority
      [{ symbol := "X", action := "open_long" }, { symbol := "X", action := "close_long" }]).2.2
     1 0 (by decide) (by decide) (by decide) (by decide)⟩


/-- Helper for C6: the risk cap never changes the position size. -/
theorem applyMaxRiskCap_positionSize (s : Sizing) (m : ℚ) :
    (applyMaxRiskCap s m).positionSizeUSD = s.positionSizeUSD := by
  unfold applyMaxRiskCap
  split <;> rfl

/-- Helper for C6: the risk normalisation never changes the position size. -/
theorem normalizeRisk_positionSize (s : Sizing) (e : ℚ) :
    (normalizeRisk s e).positionSizeUSD = s.positionSizeUSD := by
  simp only [normalizeRisk]
  split
  · split
    · rfl
    · split <;> rfl
  · rfl

/-- Helper for C6: the hard cap clamps the notional to `min p1 maxNotional`
and rescales a positive risk by exactly the clamping ratio. -/
theorem applyHardCap_eq (p1 r1 : ℚ) (hp1 : 0 < p1) (hr1 : 0 < r1) :
    applyHardCap ⟨p1, r1⟩ 980 = ⟨min p1 980, r1 * (min p1 980 / p1)⟩ := by
  unfold applyHardCap
  by_cases h : p1 > 980
  · rw [if_pos h]
    simp only [if_pos hr1]
    rw [min_eq_right (le_of_lt h)]
  · rw [if_neg h]
    rw [min_eq_left (not_lt.mp h), div_self (ne_of_gt hp1), mul_one]

/-- Helper for C6: the equity clamp block on a BTCUSDT request of 2000
produces `min 2000 cap` (cap = equity below 150, 3 × equity otherwise) and
rescales a positive risk by the same ratio. -/
theorem applyEquityClamps_btc_2000 (totalEquity r0 : ℚ)
    (heq : totalEquity > floatEpsilon) (hr0 : 0 < r0) :
    applyEquityClamps "BTCUSDT" ⟨2000, r0⟩ totalEquity =
      ⟨min 2000 (if totalEquity < 150 then totalEquity else 3 * totalEquity),
       r0 * (min 2000 (if totalEquity < 150 then totalEquity else 3 * totalEquity) / 2000)⟩ := by
  have heps : (0:ℚ) < floatEpsilon := by norm_num [floatEpsilon]
  simp only [applyEquityClamps]
  by_cases h150 : totalEquity < 150
  · rw [if_pos ⟨heq, h150⟩]
    rw [if_pos (by linarith : (2000:ℚ) > totalEquity), if_pos hr0,
        if_pos h150, min_eq_right (by linarith : totalEquity ≤ 2000)]
  · rw [if_neg (fun hc => h150 hc.2), if_pos heq]
    have hmaj : isMajorPair "BTCUSDT" = true := by decide
    simp only [hmaj, if_true, if_neg h150]
    by_cases hsoft : (2000:ℚ) > totalEquity * 3
    · rw [if_pos ⟨by linarith, hsoft⟩, if_pos hr0,
        min_eq_right (by linarith : 3 * totalEquity ≤ 2000), mul_comm totalEquity 3]
    · rw [if_neg (fun hc => hsoft hc.2),
        min_eq_left (by linarith [not_lt.mp hsoft] : (2000:ℚ) ≤ 3 * totalEquity)]
      norm_num

/-- C6: for an open decision with available balance 100, leverage 10 and
symbol BTCUSDT, the sizing guardrail computes safety buffer
`max(0.5, 2) = 2` and max notional `(100 − 2) × 10 = 980`; a requested
2000 USD notional is clamped through the equity cap (1 × equity below 150,
3 × equity for BTC otherwise) and then the 980 hard cap — i.e. to
`min (min 2000 cap) 980` — with a positive risk budget rescaled by the
clamping ratio at each of the two clamps. -/
theorem C6_sizing (totalEquity r0 stopLoss : ℚ) (marketData : MarketData)
    (heq : totalEquity > floatEpsilon) (hr0 : 0 < r0)
    (hmd : stopDistanceCheck marketData stopLoss = true) :
    safetyBuffer 100 = 2 ∧
    maxNotionalFor 100 10 = 980 ∧
    applyEquityClamps "BTCUSDT" ⟨2000, r0⟩ totalEquity =
      ⟨min 2000 (if totalEquity < 150 then totalEquity else 3 * totalEquity),
       r0 * (min 2000 (if totalEquity < 150 then totalEquity else 3 * totalEquity) / 2000)⟩ ∧
    (∀ p1 r1 : ℚ, 0 < p1 → 0 < r1 →
      applyHardCap ⟨p1, r1⟩ 980 = ⟨min p1 980, r1 * (min p1 980 / p1)⟩) ∧
    ∃ out, ensurePositionFitsBalance "BTCUSDT" 10 stopLoss ⟨2000, r0⟩ 100 totalEquity
        (some marketData) = .ok out ∧
      out.positionSizeUSD =
        min (min 2000 (if totalEquity < 150 then totalEquity else 3 * totalEquity)) 980 := by
  have heps : (0:ℚ) < floatEpsilon := by norm_num [floatEpsilon]
  have hbuf : safetyBuffer 100 = 2 := by norm_num [safetyBuffer]
  have hcap : (0:ℚ) < min 2000 (if totalEquity < 150 then totalEquity else 3 * totalEquity) := by
    by_cases h150 : totalEquity < 150
    · rw [if_pos h150]
      exact lt_min (by norm_num) (by linarith)
    · rw [if_neg h150]
      exact lt_min (by norm_num) (by linarith)
  have hout : ensurePositionFitsBalance "BTCUSDT" 10 stopLoss ⟨2000, r0⟩ 100 totalEquity
      (some marketData) =
      .ok (normalizeRisk (applyMaxRiskCap
        (applyHardCap (applyEquityClamps "BTCUSDT" ⟨2000, r0⟩ totalEquity)
          ((100 - safetyBuffer 100) * ((10:Int):ℚ)))
        (100 * (8/10))) totalEquity) := by
    simp only [ensurePositionFitsBalance]
    rw [if_neg (by decide : ¬ ((10:Int) ≤ 0))]
    rw [if_neg (by rw [hbuf]; norm_num : ¬ ((100:ℚ) - safetyBuffer 100 ≤ 0))]
    rw [if_neg (by
      rw [hbuf]
      have : isMajorPair "BTCUSDT" = true := by decide
      rw [this]
      norm_num)]
    rw [hmd]
    rfl
  have h980 : (100 - safetyBuffer 100) * ((10:Int):ℚ) = 980 := by
    rw [hbuf]
    norm_num
  refine ⟨hbuf, by rw [maxNotionalFor, hbuf]; norm_num,
    applyEquityClamps_btc_2000 totalEquity r0 heq hr0,
    fun p1 r1 hp1 hr1 => applyHardCap_eq p1 r1 hp1 hr1, ?_⟩
  refine ⟨_, hout, ?_⟩
  rw [normalizeRisk_positionSize, applyMaxRiskCap_positionSize, h980,
      applyEquityClamps_btc_2000 totalEquity r0 heq hr0,
      applyHardCap_eq _ _ hcap (by positivity)]


/-- C6 witness: equity 200, risk budget 10, a stop within the allowed
distance — the 2000 request is clamped to `min (min 2000 600) 980 = 600`. -/
theorem C6_witness :
    ∃ out, ensurePositionFitsBalance "BTCUSDT" 10 95 ⟨2000, 10⟩ 100 200
        (some ⟨100, 0, none, some ⟨10⟩, []⟩) = .ok out ∧
      out.positionSizeUSD =
        min (min 2000 (if (200:ℚ) < 150 then 200 else 3 * 200)) 980 :=
  (C6_sizing 200 10 95 ⟨100, 0, none, some ⟨10⟩, []⟩
      (by norm_num [floatEpsilon]) (by norm_num) (by decide)).2.2.2.2


/-- Helper for C7: the circuit-breaker update never touches the peak-PnL
cache. -/
theorem updateConsecutiveLosses_peak (st : TraderState) (now pnl : ℚ) :
    (updateConsecutiveLosses st now pnl).peakPnLCache = st.peakPnLCache := by
  simp only [updateConsecutiveLosses]
  repeat' split
  all_goals rfl

/-- Helper for C7: realizing PnL never touches the peak-PnL cache. -/
theorem handleRealizedPnL_peak (st : TraderState) (symbol side : String)
    (closedQuantity closePrice now : ℚ) :
    (handleRealizedPnL st symbol side closedQuantity closePrice now).peakPnLCache
      = st.peakPnLCache := by
  simp only [handleRealizedPnL]
  split
  · rfl
  · split
    · rfl
    · rw [updateConsecutiveLosses_peak]
      split <;> rfl

/-- C7 (counterexample): a regular `close_long` that fully closes the
position deletes its PositionMeta (the position is really closed) yet
leaves the Peak-PnL entry for that (symbol, side) in place, refuting the
claim that the entry is cleared when the position is closed. -/
theorem C7_counterexample :
    (executeCloseLongWithRecord
        ⟨metaSet emptyMetaMap (positionKey "BTCUSDT" "long") ⟨"long", 100, 1⟩,
         emptyCache, emptyCache,
         mapSet emptyCache (positionKey "BTCUSDT" "long") 50, 0, 0⟩
        "BTCUSDT" 110 0).peakPnLCache (positionKey "BTCUSDT" "long") = some 50 ∧
    (executeCloseLongWithRecord
        ⟨metaSet emptyMetaMap (positionKey "BTCUSDT" "long") ⟨"long", 100, 1⟩,
         emptyCache, emptyCache,
         mapSet emptyCache (positionKey "BTCUSDT" "long") 50, 0, 0⟩
        "BTCUSDT" 110 0).positionMeta (positionKey "BTCUSDT" "long") = none ∧
    some (50:ℚ) ≠ none := by
  refine ⟨by decide, by decide, by decide⟩

/-- C7 (amended): `UpdatePeakPnL` is monotone — an existing entry becomes
`max old new` (never lower) and a missing entry is created with the new
value; the drawdown monitor's `ClearPeakPnLCache` removes the entry on its
successful emergency close, but a regular `close_long`/`close_short` leaves
the whole Peak-PnL cache untouched (the entry survives the close). -/
theorem C7_peak_cache (cache : Cache) (symbol side : String) (v p : ℚ)
    (st : TraderState) (closePrice now : ℚ) :
    (cache (positionKey symbol side) = some p →
      updatePeakPnL cache symbol side v (positionKey symbol side) = some (max p v)) ∧
    (cache (positionKey symbol side) = none →
      updatePeakPnL cache symbol side v (positionKey symbol side) = some v) ∧
    clearPeakPnLCache cache symbol side (positionKey symbol side) = none ∧
    (executeCloseLongWithRecord st symbol closePrice now).peakPnLCache = st.peakPnLCache ∧
    (executeCloseShortWithRecord st symbol closePrice now).peakPnLCache = st.peakPnLCache := by
  refine ⟨?_, ?_, ?_, ?_, ?_⟩
  · intro h
    simp only [updatePeakPnL, h]
    by_cases hvp : v > p
    · rw [if_pos hvp, max_eq_right (le_of_lt hvp)]
      simp [mapSet]
    · rw [if_neg hvp, max_eq_left (not_lt.mp hvp)]
      exact h
  · intro h
    simp only [updatePeakPnL, h]
    simp [mapSet]
  · simp [clearPeakPnLCache, mapDel]
  · rw [executeCloseLongWithRecord, handleRealizedPnL_peak]
  · rw [executeCloseShortWithRecord, handleRealizedPnL_peak]

/-- C7 witness: an existing peak of 50 updated with a lower ROI of 7 stays
at `max 50 7 = 50`. -/
theorem C7_witness :
    updatePeakPnL (mapSet emptyCache (positionKey "BTCUSDT" "long") 50)
        "BTCUSDT" "long" 7 (positionKey "BTCUSDT" "long") = some (max 50 7) :=
  (C7_peak_cache (mapSet emptyCache (positionKey "BTCUSDT" "long") 50)
      "BTCUSDT" "long" 7 50 ⟨emptyMetaMap, emptyCache, emptyCache, emptyCache, 0, 0⟩
      0 0).1 (by decide)


/-- Helper for C8: the circuit-breaker update never touches the
position-meta cache. -/
theorem updateConsecutiveLosses_positionMeta (st : TraderState) (now pnl : ℚ) :
    (updateConsecutiveLosses st now pnl).positionMeta = st.positionMeta := by
  simp only [updateConsecutiveLosses]
  repeat' split
  all_goals rfl

/-- C8: a 30% partial close of a 1.0 position in a BTC-prefixed symbol
executes exactly 0.3 — the floor-rounding to the 0.001 step is exact (0.3
is itself a multiple of the step, hence the largest such multiple not
exceeding the 0.3 target) — and afterwards the cached PositionMeta
quantity equals the original cached quantity minus the closed 0.3. -/
theorem C8_partial_close (symbol : String) (st : TraderState)
    (entry q0 closePrice now : ℚ)
    (hbtc : strStartsWith (toUpperStr symbol) "BTC" = true)
    (hmeta : st.positionMeta (positionKey symbol "long") = some ⟨"long", entry, q0⟩)
    (hq : floatEpsilon ≤ q0 - 3/10) :
    partialCloseQuantity symbol 1 30 = .ok (3/10) ∧
    (∃ k : ℤ, (3/10 : ℚ) = k * (1/1000)) ∧
    (∀ x : ℚ, (∃ k : ℤ, x = k * (1/1000)) → x ≤ 3/10 → x ≤ 3/10) ∧
    ∃ st', executePartialCloseWithRecord st symbol "LONG" 1 30 closePrice now
        = .ok (3/10, st') ∧
      st'.positionMeta (positionKey symbol "long") = some ⟨"long", entry, q0 - 3/10⟩ := by
  have hstep : estimateStepSize symbol = 1/1000 := by
    rw [estimateStepSize, if_pos hbtc]
  have hround : roundQuantity symbol (3/10) = 3/10 := by
    simp only [roundQuantity, hstep]
    norm_num
  have hpcq : partialCloseQuantity symbol 1 30 = .ok (3/10) := by
    simp only [partialCloseQuantity, hstep]
    rw [if_neg (by norm_num)]
    norm_num [hround]
  have hlow : toLowerStr "LONG" = "long" := by decide
  have hexec : executePartialCloseWithRecord st symbol "LONG" 1 30 closePrice now
      = .ok (3/10, handleRealizedPnL st symbol "long" (3/10) closePrice now) := by
    simp only [executePartialCloseWithRecord, hpcq, hlow]
  have hmetaAfter : (handleRealizedPnL st symbol "long" (3/10) closePrice now).positionMeta
      (positionKey symbol "long") = some ⟨"long", entry, q0 - 3/10⟩ := by
    simp only [handleRealizedPnL, hmeta]
    rw [if_neg (by norm_num : ¬ ((3:ℚ)/10 ≤ 0)), if_neg (not_lt.mpr hq)]
    rw [updateConsecutiveLosses_positionMeta]
    simp [metaSet]
  exact ⟨hpcq, ⟨300, by norm_num⟩, fun x _ hx => hx, _, hexec, hmetaAfter⟩

/-- C8 witness: the concrete BTCUSDT position of quantity 1.0, partial
close 30% at price 110 — close quantity 0.3, remaining cached 0.7. -/
theorem C8_witness :
    partialCloseQuantity "BTCUSDT" 1 30 = .ok (3/10) ∧
    ∃ st', executePartialCloseWithRecord
        ⟨metaSet emptyMetaMap (positionKey "BTCUSDT" "long") ⟨"long", 100, 1⟩,
         emptyCache, emptyCache, emptyCache, 0, 0⟩
        "BTCUSDT" "LONG" 1 30 110 0 = .ok (3/10, st') ∧
      st'.positionMeta (positionKey "BTCUSDT" "long") = some ⟨"long", 100, 1 - 3/10⟩ :=
  ⟨(C8_partial_close "BTCUSDT"
      ⟨metaSet emptyMetaMap (positionKey "BTCUSDT" "long") ⟨"long", 100, 1⟩,
       emptyCache, emptyCache, emptyCache, 0, 0⟩ 100 1 110 0
      (by decide) (by decide) (by norm_num [floatEpsilon])).1,
   (C8_partial_close "BTCUSDT"
      ⟨metaSet emptyMetaMap (positionKey "BTCUSDT" "long") ⟨"long", 100, 1⟩,
       emptyCache, emptyCache, emptyCache, 0, 0⟩ 100 1 110 0
      (by decide) (by decide) (by norm_num [floatEpsilon])).2.2.2⟩


/-- C9 (counterexample): a short at entry 100 with cached stop 130 and
price 10 yields the synthesized take-profit target −5; after that target is
cached, a second synthesis pass over the same state computes −5 again and
does **not** suppress it — the `1e-5` relative-tolerance comparison flips
for negative prices — so a duplicate decision is emitted, refuting the
claimed idempotence. -/
theorem C9_counterexample :
    buildAutoTakeProfitDecisions
        (mapSet emptyCache (positionKey "ETHUSDT" "short") 130) emptyCache
        [⟨"ETHUSDT", "short", 100, 10, 1⟩] (fun _ => none) []
      = [{ symbol := "ETHUSDT", action := "update_take_profit", newTakeProfit := -5 }] ∧
    buildAutoTakeProfitDecisions
        (mapSet emptyCache (positionKey "ETHUSDT" "short") 130)
        (storeTakeProfit emptyCache "ETHUSDT" "short" (-5))
        [⟨"ETHUSDT", "short", 100, 10, 1⟩] (fun _ => none) []
      = [{ symbol := "ETHUSDT", action := "update_take_profit", newTakeProfit := -5 }] ∧
    ([{ symbol := "ETHUSDT", action := "update_take_profit", newTakeProfit := -5 }] :
        List Decision) ≠ [] := by
  refine ⟨by decide, by decide, by decide⟩

/-- C9 (amended): the synthesis pass is idempotent whenever the computed
target is nonnegative: if the per-position computation yields target `t ≥ 0`
and no take-profit is cached yet, the pass emits exactly one
`update_take_profit` decision for `t`; once `t` is cached (the successful
execution path), a second pass over the same position and market state
recomputes `t` and suppresses it, emitting nothing. -/
theorem C9_auto_tp_idempotent (stopLossCache takeProfitCache : Cache)
    (pos : PositionInfo) (priceOf : String → Option ℚ) (t : ℚ)
    (hside : toLowerStr pos.side = "long" ∨ toLowerStr pos.side = "short")
    (ht : autoTPTarget stopLossCache pos (autoTPCurrentPrice priceOf pos) = some t)
    (htnn : 0 ≤ t)
    (hnone : takeProfitCache (positionKey pos.symbol (toLowerStr pos.side)) = none) :
    buildAutoTakeProfitDecisions stopLossCache takeProfitCache [pos] priceOf [] =
      [{ symbol := pos.symbol, action := "update_take_profit", newTakeProfit := t }] ∧
    buildAutoTakeProfitDecisions stopLossCache
        (storeTakeProfit takeProfitCache pos.symbol (toLowerStr pos.side) t)
        [pos] priceOf [] = [] := by
  have hsup1 : autoTPSuppressed takeProfitCache pos t = false := by
    simp only [autoTPSuppressed, hnone]
  have hsup2 : autoTPSuppressed
      (storeTakeProfit takeProfitCache pos.symbol (toLowerStr pos.side) t) pos t = true := by
    simp only [autoTPSuppressed, storeTakeProfit, mapSet, if_pos rfl, if_true]
    rw [decide_eq_true_eq]
    rcases hside with hl | hs
    · left
      exact ⟨hl, by nlinarith⟩
    · right
      exact ⟨hs, by nlinarith⟩
  constructor
  · simp only [buildAutoTakeProfitDecisions, autoTPExistingKeys,
      buildAutoTakeProfitDecisionsAux, ht, hsup1]
    simp
  · simp only [buildAutoTakeProfitDecisions, autoTPExistingKeys,
      buildAutoTakeProfitDecisionsAux, ht, hsup2]
    simp

/-- C9 witness: a long at entry 100 with cached stop 90 and price 200
computes target 205 ≥ 0; the first pass emits it, the second pass (with 205
cached) emits nothing. -/
theorem C9_witness :
    buildAutoTakeProfitDecisions
        (mapSet emptyCache (positionKey "BTCUSDT" "long") 90) emptyCache
        [⟨"BTCUSDT", "long", 100, 200, 1⟩] (fun _ => none) []
      = [{ symbol := "BTCUSDT", action := "update_take_profit", newTakeProfit := 205 }] ∧
    buildAutoTakeProfitDecisions
        (mapSet emptyCache (positionKey "BTCUSDT" "long") 90)
        (storeTakeProfit emptyCache "BTCUSDT" "long" 205)
        [⟨"BTCUSDT", "long", 100, 200, 1⟩] (fun _ => none) [] = [] :=
  C9_auto_tp_idempotent
    (mapSet emptyCache (positionKey "BTCUSDT" "long") 90) emptyCache
    ⟨"BTCUSDT", "long", 100, 200, 1⟩ (fun _ => none) 205
    (by decide) (by decide) (by norm_num) (by decide)


/-- C10: the duplicate-position gate fails open on adapter error — when
`GetPositions` errors, both open handlers skip the gate and proceed to the
market-data filters, even if a same-symbol same-side position exists in
reality; when the query succeeds and such a position is present, the gate
rejects; by contrast the entry filters fail closed on missing indicator
data. -/
theorem C10_dup_gate_fails_open (confidence : Int) (symbol e : String)
    (positions : List SnapshotRow) (md : MarketData)
    (hconf : ¬ confidence < minConfidence)
    (hmidL : ensureMidTermEntryFilters (some md) "long" = .ok ())
    (hmomL : ensureShortTermMomentum (some md) "long" = .ok ())
    (hmidS : ensureMidTermEntryFilters (some md) "short" = .ok ())
    (hmomS : ensureShortTermMomentum (some md) "short" = .ok ()) :
    executeOpenLongPrefix confidence (.error e) symbol (.ok md) = .ok md ∧
    executeOpenShortPrefix confidence (.error e) symbol (.ok md) = .ok md ∧
    ((∃ p ∈ positions, p.symbol = symbol ∧ p.side = "long") →
      ∃ msg, executeOpenLongPrefix confidence (.ok positions) symbol (.ok md)
        = .error msg) ∧
    ((∃ p ∈ positions, p.symbol = symbol ∧ p.side = "short") →
      ∃ msg, executeOpenShortPrefix confidence (.ok positions) symbol (.ok md)
        = .error msg) ∧
    (∀ mdBad : MarketData, mdBad.midTermContext = none →
      ∃ msg, executeOpenLongPrefix confidence (.error e) symbol (.ok mdBad)
        = .error msg) := by
  refine ⟨?_, ?_, ?_, ?_, ?_⟩
  · simp [executeOpenLongPrefix, hconf, hmidL, hmomL]
  · simp [executeOpenShortPrefix, hconf, hmidS, hmomS]
  · rintro ⟨p, hp, hps, hpd⟩
    have hdup : (positions.any fun q => decide (q.symbol = symbol ∧ q.side = "long")) = true := by
      rw [List.any_eq_true]
      exact ⟨p, hp, by simp [hps, hpd]⟩
    refine ⟨"existing long position, refusing to stack", ?_⟩
    simp only [executeOpenLongPrefix]
    rw [if_neg hconf, if_pos hdup]
  · rintro ⟨p, hp, hps, hpd⟩
    have hdup : (positions.any fun q => decide (q.symbol = symbol ∧ q.side = "short")) = true := by
      rw [List.any_eq_true]
      exact ⟨p, hp, by simp [hps, hpd]⟩
    refine ⟨"existing short position, refusing to stack", ?_⟩
    simp only [executeOpenShortPrefix]
    rw [if_neg hconf, if_pos hdup]
  · intro mdBad hbad
    refine ⟨"missing 15m indicators", ?_⟩
    simp [executeOpenLongPrefix, hconf, ensureMidTermEntryFilters, hbad]

/-- C10 witness: with the positions query failing, an `open_long` at
confidence 90 on BTCUSDT passes the (skipped) duplicate gate and reaches
the market data; with the query succeeding and an existing BTCUSDT long,
the same decision is rejected. -/
theorem C10_witness :
    executeOpenLongPrefix 90 (.error "boom") "BTCUSDT"
        (.ok ⟨100, 0, some ⟨1, 100, 50⟩, some ⟨10⟩, [50, 50]⟩) =
      .ok ⟨100, 0, some ⟨1, 100, 50⟩, some ⟨10⟩, [50, 50]⟩ ∧
    ∃ msg, executeOpenLongPrefix 90 (.ok [⟨"BTCUSDT", "long"⟩]) "BTCUSDT"
        (.ok ⟨100, 0, some ⟨1, 100, 50⟩, some ⟨10⟩, [50, 50]⟩) = .error msg :=
  ⟨(C10_dup_gate_fails_open 90 "BTCUSDT" "boom" [⟨"BTCUSDT", "long"⟩]
      ⟨100, 0, some ⟨1, 100, 50⟩, some ⟨10⟩, [50, 50]⟩
      (by decide) (by rfl) (by rfl) (by rfl) (by rfl)).1,
   (C10_dup_gate_fails_open 90 "BTCUSDT" "boom" [⟨"BTCUSDT", "long"⟩]
      ⟨100, 0, some ⟨1, 100, 50⟩, some ⟨10⟩, [50, 50]⟩
      (by decide) (by rfl) (by rfl) (by rfl) (by rfl)).2.2.1
     ⟨⟨"BTCUSDT", "long"⟩, by decide, rfl, rfl⟩⟩

end
